import Mathlib

/-!
Verification development for a Wayland-style compositor library:
the seat capability global (server side), the sub-surface private state,
and the client-side Plasma window replica model.

Server-side definitions are translated from
`src/server/seat_interface.cpp` and `src/server/subsurface_interface_p.h`.
The window replica model implementation file is not part of the sources at
hand (only its test suite is), so its operations are modelled from the
specification; each such definition is marked `Modelled from the spec:`.
-/

namespace Seat

/-- Capability bit for a pointer, from the wayland protocol header
(`WL_SEAT_CAPABILITY_POINTER`). -/
def capPointer : Nat := 1

/-- Capability bit for a keyboard (`WL_SEAT_CAPABILITY_KEYBOARD`). -/
def capKeyboard : Nat := 2

/-- Capability bit for touch (`WL_SEAT_CAPABILITY_TOUCH`). -/
def capTouch : Nat := 4

/-- `WL_SEAT_NAME_SINCE_VERSION`: minimum negotiated version for which the
name event may be sent (defined to 2 in `seat_interface.cpp`). -/
def nameSinceVersion : Nat := 2

/-- `s_version` in `seat_interface.cpp`: the maximum version the seat
global supports. -/
def sVersion : Nat := 3

/-- A bound resource of the seat global: its identifier within the
connection and its negotiated protocol version
(`wl_resource_create(client, &wl_seat_interface, qMin(s_version, version), id)`). -/
structure Resource where
  rid : Nat
  version : Nat
  deriving DecidableEq, Repr

/-- The state of `SeatInterface::Private`: the seat name, the three
capability flags, and the list of bound resources. -/
structure State where
  name : String
  pointer : Bool
  keyboard : Bool
  touch : Bool
  resources : List Resource
  deriving DecidableEq, Repr

/-- Events the seat global sends to a resource. -/
inductive Event where
  | capabilities (rid : Nat) (caps : Nat)
  | name (rid : Nat) (value : String)
  deriving DecidableEq, Repr

/-- Whether an event is a name event. -/
def Event.isName : Event → Bool
  | .name _ _ => true
  | _ => false

/-- Whether an event is a capabilities event. -/
def Event.isCapabilities : Event → Bool
  | .capabilities _ _ => true
  | _ => false

/-- `SeatInterface::Private::sendCapabilities`: build the capability mask
from the current flags and send it to resource `r`. -/
def capabilitiesMask (s : State) : Nat :=
  ((if s.pointer then capPointer else 0) |||
    (if s.keyboard then capKeyboard else 0)) |||
  (if s.touch then capTouch else 0)

/-- The capabilities event `sendCapabilities` emits to one resource. -/
def sendCapabilities (s : State) (r : Resource) : Event :=
  .capabilities r.rid (capabilitiesMask s)

/-- `SeatInterface::Private::sendName`: send the name event unless the
resource's negotiated version predates `WL_SEAT_NAME_SINCE_VERSION`. -/
def sendName (s : State) (r : Resource) : List Event :=
  if r.version < nameSinceVersion then [] else [.name r.rid s.name]

/-- The `sendCapabilitiesAll` lambda in the `SeatInterface` constructor:
send the capabilities event to every bound resource. -/
def sendCapabilitiesAll (s : State) : List Event :=
  s.resources.map (sendCapabilities s)

/-- `SeatInterface::setHasPointer`: no-op when unchanged, otherwise update
the flag and (via `hasPointerChanged`) broadcast capabilities to all
resources. -/
def setHasPointer (s : State) (has : Bool) : State × List Event :=
  if s.pointer = has then (s, [])
  else
    let s' := { s with pointer := has }
    (s', sendCapabilitiesAll s')

/-- `SeatInterface::setHasKeyboard`. -/
def setHasKeyboard (s : State) (has : Bool) : State × List Event :=
  if s.keyboard = has then (s, [])
  else
    let s' := { s with keyboard := has }
    (s', sendCapabilitiesAll s')

/-- `SeatInterface::setHasTouch`. -/
def setHasTouch (s : State) (has : Bool) : State × List Event :=
  if s.touch = has then (s, [])
  else
    let s' := { s with touch := has }
    (s', sendCapabilitiesAll s')

/-- `SeatInterface::setName`: no-op when unchanged, otherwise update and
(via `nameChanged`) send the name event to every resource. -/
def setName (s : State) (n : String) : State × List Event :=
  if s.name = n then (s, [])
  else
    let s' := { s with name := n }
    (s', s'.resources.flatMap (sendName s'))

/-- A change to one capability flag of the seat. -/
inductive CapChange where
  | pointer (has : Bool)
  | keyboard (has : Bool)
  | touch (has : Bool)
  deriving DecidableEq, Repr

/-- Dispatch a capability-flag change to the corresponding setter. -/
def applyCapChange (s : State) : CapChange → State × List Event
  | .pointer b => setHasPointer s b
  | .keyboard b => setHasKeyboard s b
  | .touch b => setHasTouch s b

/-- Whether the change actually alters the flag set (the setters no-op
otherwise). -/
def changesFlag (s : State) : CapChange → Bool
  | .pointer b => s.pointer != b
  | .keyboard b => s.keyboard != b
  | .touch b => s.touch != b

/-- `SeatInterface::Private::bind`: create the resource at version
`min(s_version, requested)`; on allocation failure post a fatal
out-of-memory error to the client and register nothing; on success append
it to the tracking list and immediately send capabilities and (version
permitting) name.  The result is the new state, the events sent to the
new resource, and whether a fatal error was posted. -/
def bind (s : State) (requested : Nat) (id : Nat) (allocOk : Bool) :
    State × List Event × Bool :=
  if allocOk then
    let r : Resource := ⟨id, min sVersion requested⟩
    let s' := { s with resources := s.resources ++ [r] }
    (s', sendCapabilities s' r :: sendName s' r, false)
  else
    (s, [], true)

/-- `SeatInterface::Private::unbind`: remove the resource from the
tracking list (`resources.removeAll(r)`). -/
def unbind (s : State) (r : Resource) : State :=
  { s with resources := s.resources.filter (fun x => x ≠ r) }

end Seat

namespace SubSurface

/-- `SubSurfaceInterface::Mode`: commit coupling of a sub-surface to its
parent. -/
inductive Mode where
  | Synchronized
  | Desynchronized
  deriving DecidableEq, Repr

/-- The data members of `SubSurfaceInterface::Private` with their default
member initializers from `subsurface_interface_p.h`: the committed
position `pos = QPoint(0, 0)`, the staged position `scheduledPos =
QPoint()` (which is the origin), the `scheduledPosChange = false` flag and
`mode = Mode::Synchronized`. -/
structure PrivateState where
  pos : Int × Int
  scheduledPos : Int × Int
  scheduledPosChange : Bool
  mode : Mode
  deriving DecidableEq, Repr

/-- The state a freshly constructed `SubSurfaceInterface::Private` holds,
as given by the in-class initializers. -/
def initialPrivateState : PrivateState :=
  { pos := (0, 0)
    scheduledPos := (0, 0)
    scheduledPosChange := false
    mode := Mode.Synchronized }

end SubSurface

namespace PWModel

/-- The queryable attribute slots of a window item: the display role
(title), the application identifier, the virtual-desktop index and the
sixteen boolean state roles of `PlasmaWindowModel::AdditionalRoles`. -/
inductive Role where
  | DisplayRole
  | AppId
  | VirtualDesktop
  | IsActive
  | IsFullscreenable
  | IsFullscreen
  | IsMaximizable
  | IsMaximized
  | IsMinimizable
  | IsMinimized
  | IsKeepAbove
  | IsKeepBelow
  | IsOnAllDesktops
  | IsDemandingAttention
  | SkipTaskbar
  | IsShadeable
  | IsShaded
  | IsMovable
  | IsResizable
  deriving DecidableEq, Repr

/-- All roles, in declaration order. -/
def allRoles : List Role :=
  [.DisplayRole, .AppId, .VirtualDesktop, .IsActive, .IsFullscreenable,
   .IsFullscreen, .IsMaximizable, .IsMaximized, .IsMinimizable,
   .IsMinimized, .IsKeepAbove, .IsKeepBelow, .IsOnAllDesktops,
   .IsDemandingAttention, .SkipTaskbar, .IsShadeable, .IsShaded,
   .IsMovable, .IsResizable]

/-- A role value: string, integer or boolean. -/
inductive Value where
  | str (s : String)
  | int (n : Int)
  | bool (b : Bool)
  deriving DecidableEq, Repr

/-- Modelled from the spec: a `WindowItem` replica entity (the
implementation file of the window model is not among the sources; only
its test suite is).  A stable identifier, the typed attributes, and the
buffer of pending attribute updates awaiting the done marker. -/
structure WindowItem where
  wid : Nat
  title : String
  appId : String
  virtualDesktop : Int
  active : Bool
  fullscreenable : Bool
  fullscreen : Bool
  maximizable : Bool
  maximized : Bool
  minimizable : Bool
  minimized : Bool
  keepAbove : Bool
  keepBelow : Bool
  onAllDesktops : Bool
  demandsAttention : Bool
  skipTaskbar : Bool
  shadeable : Bool
  shaded : Bool
  movable : Bool
  resizable : Bool
  pending : List (Role × Value)
  deriving DecidableEq, Repr

/-- Modelled from the spec: the defaults of a freshly created item —
empty strings, zero, all booleans false, nothing pending. -/
def defaultItem (id : Nat) : WindowItem :=
  { wid := id, title := "", appId := "", virtualDesktop := 0
    active := false, fullscreenable := false, fullscreen := false
    maximizable := false, maximized := false, minimizable := false
    minimized := false, keepAbove := false, keepBelow := false
    onAllDesktops := false, demandsAttention := false
    skipTaskbar := false, shadeable := false, shaded := false
    movable := false, resizable := false, pending := [] }

/-- The current value an item reports for a role. -/
def itemData (w : WindowItem) : Role → Value
  | .DisplayRole => .str w.title
  | .AppId => .str w.appId
  | .VirtualDesktop => .int w.virtualDesktop
  | .IsActive => .bool w.active
  | .IsFullscreenable => .bool w.fullscreenable
  | .IsFullscreen => .bool w.fullscreen
  | .IsMaximizable => .bool w.maximizable
  | .IsMaximized => .bool w.maximized
  | .IsMinimizable => .bool w.minimizable
  | .IsMinimized => .bool w.minimized
  | .IsKeepAbove => .bool w.keepAbove
  | .IsKeepBelow => .bool w.keepBelow
  | .IsOnAllDesktops => .bool w.onAllDesktops
  | .IsDemandingAttention => .bool w.demandsAttention
  | .SkipTaskbar => .bool w.skipTaskbar
  | .IsShadeable => .bool w.shadeable
  | .IsShaded => .bool w.shaded
  | .IsMovable => .bool w.movable
  | .IsResizable => .bool w.resizable

/-- The documented default value of a role (what `data` answers for an
out-of-range row). -/
def defaultValue : Role → Value
  | .DisplayRole => .str ""
  | .AppId => .str ""
  | .VirtualDesktop => .int 0
  | _ => .bool false

/-- Write one role value into the item; a value of the wrong kind for the
role leaves the item untouched (events on the wire are typed). -/
def applyRoleValue (w : WindowItem) : Role → Value → WindowItem
  | .DisplayRole, .str s => { w with title := s }
  | .AppId, .str s => { w with appId := s }
  | .VirtualDesktop, .int n => { w with virtualDesktop := n }
  | .IsActive, .bool b => { w with active := b }
  | .IsFullscreenable, .bool b => { w with fullscreenable := b }
  | .IsFullscreen, .bool b => { w with fullscreen := b }
  | .IsMaximizable, .bool b => { w with maximizable := b }
  | .IsMaximized, .bool b => { w with maximized := b }
  | .IsMinimizable, .bool b => { w with minimizable := b }
  | .IsMinimized, .bool b => { w with minimized := b }
  | .IsKeepAbove, .bool b => { w with keepAbove := b }
  | .IsKeepBelow, .bool b => { w with keepBelow := b }
  | .IsOnAllDesktops, .bool b => { w with onAllDesktops := b }
  | .IsDemandingAttention, .bool b => { w with demandsAttention := b }
  | .SkipTaskbar, .bool b => { w with skipTaskbar := b }
  | .IsShadeable, .bool b => { w with shadeable := b }
  | .IsShaded, .bool b => { w with shaded := b }
  | .IsMovable, .bool b => { w with movable := b }
  | .IsResizable, .bool b => { w with resizable := b }
  | _, _ => w

/-- Notifications the model emits to presentation consumers. -/
inductive Notif where
  | rowInserted (idx : Nat)
  | rowRemoved (idx : Nat)
  | dataChanged (idx : Nat) (roles : List Role)
  deriving DecidableEq, Repr

/-- Whether a notification is a data-changed notification. -/
def Notif.isDataChanged : Notif → Bool
  | .dataChanged _ _ => true
  | _ => false

/-- Modelled from the spec: the window replica model — an ordered
sequence of window items, row index = position. -/
structure Model where
  windows : List WindowItem
  deriving DecidableEq, Repr

/-- The initially empty model. -/
def emptyModel : Model := ⟨[]⟩

/-- Row index of the (first) item with the given stable identifier. -/
def findRow : List WindowItem → Nat → Option Nat
  | [], _ => none
  | w :: ws, id => if w.wid = id then some 0 else (findRow ws id).map (· + 1)

/-- `rowCount()`. -/
def rowCount (m : Model) : Nat := m.windows.length

/-- The item at a (possibly negative) row, or none when out of range. -/
def itemAt (m : Model) (row : Int) : Option WindowItem :=
  if 0 ≤ row then m.windows.get? row.toNat else none

/-- `data(row, role)`: the item's value, or the role's default when the
row is out of range. -/
def data (m : Model) (row : Int) (role : Role) : Value :=
  match itemAt m row with
  | none => defaultValue role
  | some w => itemData w role

/-- Modelled from the spec: `onWindowCreated(id)` appends a default item
at the tail and emits a row-inserted notification with the new index. -/
def onWindowCreated (m : Model) (id : Nat) : Model × List Notif :=
  (⟨m.windows ++ [defaultItem id]⟩, [.rowInserted m.windows.length])

/-- Modelled from the spec: `onWindowClosed(id)` splices the item out and
emits a row-removed notification with the removed index; unknown
identifiers are ignored. -/
def onWindowClosed (m : Model) (id : Nat) : Model × List Notif :=
  match findRow m.windows id with
  | none => (m, [])
  | some i => (⟨m.windows.eraseIdx i⟩, [.rowRemoved i])

/-- Modelled from the spec: `onAttributeEvent(id, role, value)` buffers
the value in the item's pending-update set and emits nothing. -/
def onAttributeEvent (m : Model) (id : Nat) (r : Role) (v : Value) : Model :=
  ⟨m.windows.map (fun w =>
    if w.wid = id then { w with pending := w.pending ++ [(r, v)] } else w)⟩

/-- Apply an item's buffered pending updates in order and clear the
buffer. -/
def doneApply (w : WindowItem) : WindowItem :=
  { w.pending.foldl (fun a rv => applyRoleValue a rv.1 rv.2) w with
    pending := [] }

/-- The roles whose value the done marker actually changes. -/
def changedRoles (w : WindowItem) : List Role :=
  allRoles.filter (fun r => itemData w r ≠ itemData (doneApply w) r)

/-- Modelled from the spec: `onDone(id)` applies the buffered updates
atomically; when at least one role's value changed it emits exactly one
data-changed notification carrying the row and the changed-role set,
otherwise it emits nothing. -/
def onDone (m : Model) (id : Nat) : Model × List Notif :=
  match findRow m.windows id with
  | none => (m, [])
  | some i =>
    let m' : Model := ⟨m.windows.map (fun w =>
      if w.wid = id then doneApply w else w)⟩
    let notifs :=
      match m.windows.get? i with
      | none => []
      | some w =>
        if (changedRoles w).isEmpty then []
        else [.dataChanged i (changedRoles w)]
    (m', notifs)

/-- Buffer a whole batch of attribute events for one item. -/
def applyEvents (m : Model) (id : Nat) (evs : List (Role × Value)) : Model :=
  evs.foldl (fun acc rv => onAttributeEvent acc id rv.1 rv.2) m

/-- Protocol requests the model forwards to the server. -/
inductive Request where
  | activate (id : Nat)
  | close (id : Nat)
  | move (id : Nat)
  | resize (id : Nat)
  | virtualDesktop (id : Nat) (desktop : Int)
  | setMinimized (id : Nat) (target : Bool)
  | setMaximized (id : Nat) (target : Bool)
  | setShaded (id : Nat) (target : Bool)
  deriving DecidableEq, Repr

/-- The outcome of a `request*` call: the (unchanged or changed) model,
the protocol requests forwarded, and the notifications emitted. -/
abbrev ReqResult := Model × List Request × List Notif

/-- Modelled from the spec: a `request*` entry point resolves the row and
forwards one request built from the item; an out-of-range row is silently
ignored with no request, no error and no notification.  The model state
is never touched by outgoing requests. -/
def requestVia (m : Model) (row : Int) (f : WindowItem → Request) :
    ReqResult :=
  match itemAt m row with
  | none => (m, [], [])
  | some w => (m, [f w], [])

/-- `requestActivate(row)`. -/
def requestActivate (m : Model) (row : Int) : ReqResult :=
  requestVia m row (fun w => .activate w.wid)

/-- `requestClose(row)`. -/
def requestClose (m : Model) (row : Int) : ReqResult :=
  requestVia m row (fun w => .close w.wid)

/-- `requestMove(row)`. -/
def requestMove (m : Model) (row : Int) : ReqResult :=
  requestVia m row (fun w => .move w.wid)

/-- `requestResize(row)`. -/
def requestResize (m : Model) (row : Int) : ReqResult :=
  requestVia m row (fun w => .resize w.wid)

/-- `requestVirtualDesktop(row, desktop)`. -/
def requestVirtualDesktop (m : Model) (row : Int) (desktop : Int) :
    ReqResult :=
  requestVia m row (fun w => .virtualDesktop w.wid desktop)

/-- Modelled from the spec: `requestToggleMinimized(row)` forwards a
request for the logical negation of the item's current minimized value,
without applying it locally. -/
def requestToggleMinimized (m : Model) (row : Int) : ReqResult :=
  requestVia m row (fun w => .setMinimized w.wid (!w.minimized))

/-- `requestToggleMaximized(row)`. -/
def requestToggleMaximized (m : Model) (row : Int) : ReqResult :=
  requestVia m row (fun w => .setMaximized w.wid (!w.maximized))

/-- `requestToggleShaded(row)`. -/
def requestToggleShaded (m : Model) (row : Int) : ReqResult :=
  requestVia m row (fun w => .setShaded w.wid (!w.shaded))

/-- A window lifecycle event pushed by the server. -/
inductive WEvent where
  | created (id : Nat)
  | closed (id : Nat)
  deriving DecidableEq, Repr

/-- Dispatch one lifecycle event. -/
def stepW (m : Model) : WEvent → Model × List Notif
  | .created id => onWindowCreated m id
  | .closed id => onWindowClosed m id

/-- Run a sequence of lifecycle events, collecting all notifications. -/
def runW : Model → List WEvent → Model × List Notif
  | m, [] => (m, [])
  | m, e :: es =>
    let r := stepW m e
    let rest := runW r.1 es
    (rest.1, r.2 ++ rest.2)

/-- A lifecycle sequence is well formed from a state when every created
identifier is fresh and every closed identifier is present. -/
def wellFormedW : Model → List WEvent → Bool
  | _, [] => true
  | m, .created id :: es =>
    (findRow m.windows id).isNone && wellFormedW (onWindowCreated m id).1 es
  | m, .closed id :: es =>
    (findRow m.windows id).isSome && wellFormedW (onWindowClosed m id).1 es

/-- Number of created events. -/
def countCreates (es : List WEvent) : Nat :=
  es.countP (fun e => match e with | .created _ => true | .closed _ => false)

/-- Number of closed events. -/
def countCloses (es : List WEvent) : Nat :=
  es.countP (fun e => match e with | .created _ => false | .closed _ => true)

/-- Modelled from the spec: the full client-side effect of a
window-created wire event.  Per the design note (a known protocol
inefficiency the test suite documents), the creation itself additionally
delivers one attribute-change notification for the new row, after the
row-inserted notification, although the client issued no attribute
change. -/
def creationPipeline (m : Model) (id : Nat) : Model × List Notif :=
  let r := onWindowCreated m id
  (r.1, r.2 ++ [.dataChanged m.windows.length allRoles])

end PWModel

/-- A fixture seat state with two bound resources, one at version 3 and
one at version 1. -/
def seatFix : Seat.State :=
  { name := "seat0", pointer := true, keyboard := true, touch := false
    resources := [⟨5, 3⟩, ⟨6, 1⟩] }

/-- A fixture window model holding one default window with identifier 7. -/
def modelFix : PWModel.Model := ⟨[PWModel.defaultItem 7]⟩

/-- A fixture lifecycle sequence: two creations then one close. -/
def lifecycleFix : List PWModel.WEvent :=
  [.created 1, .created 2, .closed 1]

namespace Seat

/-- The capability mask is the sum of the enabled flags: the three bits
are disjoint, so bitwise union and addition agree. -/
lemma capabilitiesMask_eq_sum (s : State) :
    capabilitiesMask s =
      (if s.pointer then capPointer else 0) +
      (if s.keyboard then capKeyboard else 0) +
      (if s.touch then capTouch else 0) := by
  unfold capabilitiesMask capPointer capKeyboard capTouch
  cases s.pointer <;> cases s.keyboard <;> cases s.touch <;> decide

/-- A flag setter leaves the resource list untouched. -/
lemma applyCapChange_resources (s : State) (c : CapChange) :
    ((applyCapChange s c).1).resources = s.resources := by
  cases c <;>
    simp only [applyCapChange, setHasPointer, setHasKeyboard, setHasTouch] <;>
    split <;> rfl

end Seat

/-- **C6.** Changing any capability flag broadcasts one capabilities
event to every currently bound resource, and the payload is the full
current flag set — the union (here: sum of the disjoint bits) of every
enabled flag — not a delta. -/
theorem seat_capability_broadcast_full_set
    (s : Seat.State) (c : Seat.CapChange)
    (h : Seat.changesFlag s c = true) :
    (Seat.applyCapChange s c).2 =
      s.resources.map (fun r => Seat.Event.capabilities r.rid
        (Seat.capabilitiesMask (Seat.applyCapChange s c).1)) ∧
    Seat.capabilitiesMask (Seat.applyCapChange s c).1 =
      (if (Seat.applyCapChange s c).1.pointer then Seat.capPointer else 0) +
      (if (Seat.applyCapChange s c).1.keyboard then Seat.capKeyboard else 0) +
      (if (Seat.applyCapChange s c).1.touch then Seat.capTouch else 0) := by
  refine ⟨?_, Seat.capabilitiesMask_eq_sum _⟩
  cases c with
  | pointer b =>
    simp only [Seat.changesFlag, bne_iff_ne, ne_eq] at h
    simp [Seat.applyCapChange, Seat.setHasPointer, h,
      Seat.sendCapabilitiesAll, Seat.sendCapabilities]
  | keyboard b =>
    simp only [Seat.changesFlag, bne_iff_ne, ne_eq] at h
    simp [Seat.applyCapChange, Seat.setHasKeyboard, h,
      Seat.sendCapabilitiesAll, Seat.sendCapabilities]
  | touch b =>
    simp only [Seat.changesFlag, bne_iff_ne, ne_eq] at h
    simp [Seat.applyCapChange, Seat.setHasTouch, h,
      Seat.sendCapabilitiesAll, Seat.sendCapabilities]

/-- Witness for C6: enabling touch on a seat that has pointer+keyboard
delivers the three-flag union to both bound resources. -/
theorem seat_capability_broadcast_full_set_witness :
    Seat.changesFlag seatFix (Seat.CapChange.touch true) = true ∧
    ((Seat.applyCapChange seatFix (Seat.CapChange.touch true)).2 =
      seatFix.resources.map (fun r => Seat.Event.capabilities r.rid
        (Seat.capabilitiesMask
          (Seat.applyCapChange seatFix (Seat.CapChange.touch true)).1)) ∧
     Seat.capabilitiesMask
        (Seat.applyCapChange seatFix (Seat.CapChange.touch true)).1 =
      (if (Seat.applyCapChange seatFix (Seat.CapChange.touch true)).1.pointer
        then Seat.capPointer else 0) +
      (if (Seat.applyCapChange seatFix (Seat.CapChange.touch true)).1.keyboard
        then Seat.capKeyboard else 0) +
      (if (Seat.applyCapChange seatFix (Seat.CapChange.touch true)).1.touch
        then Seat.capTouch else 0)) :=
  ⟨by decide,
   seat_capability_broadcast_full_set seatFix (Seat.CapChange.touch true)
     (by decide)⟩

/-- **C7.** A bind whose resource allocation fails is rejected: the state
(in particular the resource tracking list) is exactly as before, no event
is sent, and a fatal out-of-memory protocol error is posted to the
issuing client. -/
theorem seat_bind_allocation_failure
    (s : Seat.State) (v id : Nat) :
    (Seat.bind s v id false).1 = s ∧
    (Seat.bind s v id false).1.resources = s.resources ∧
    (Seat.bind s v id false).2.1 = [] ∧
    (Seat.bind s v id false).2.2 = true := by
  simp [Seat.bind]

/-- **C8.** The name event is sent to a resource if and only if its
negotiated version is at least `WL_SEAT_NAME_SINCE_VERSION` (2): the
per-resource send is empty below version 2 and a single name event from
version 2 on; a changed name broadcasts exactly that per-resource send to
every resource, and a successful bind's name events are exactly that
per-resource send for the new resource. -/
theorem seat_name_event_version_gate
    (s : Seat.State) (r : Seat.Resource) :
    (r.version < Seat.nameSinceVersion → Seat.sendName s r = []) ∧
    (Seat.nameSinceVersion ≤ r.version →
      Seat.sendName s r = [Seat.Event.name r.rid s.name]) ∧
    (∀ n, s.name ≠ n →
      (Seat.setName s n).2 =
        s.resources.flatMap (Seat.sendName { s with name := n })) ∧
    (∀ v id,
      ((Seat.bind s v id true).2.1).filter Seat.Event.isName =
        Seat.sendName s ⟨id, min Seat.sVersion v⟩) := by
  refine ⟨?_, ?_, ?_, ?_⟩
  · intro h; simp [Seat.sendName, h]
  · intro h; simp [Seat.sendName, Nat.not_lt.mpr h]
  · intro n hn
    simp [Seat.setName, hn]
  · intro v id
    simp only [Seat.bind, if_pos, List.filter]
    simp only [Seat.sendCapabilities, Seat.Event.isName]
    rw [show (Seat.sendName { s with resources := s.resources ++
        [(⟨id, min Seat.sVersion v⟩ : Seat.Resource)] }
        ⟨id, min Seat.sVersion v⟩ : List Seat.Event) =
        Seat.sendName s ⟨id, min Seat.sVersion v⟩ from rfl]
    unfold Seat.sendName
    split <;> simp [Seat.Event.isName]

/-- Witness for C8: on `seatFix`, the version-3 resource receives the
name event, the version-1 resource does not, and a name change
broadcasts accordingly. -/
theorem seat_name_event_version_gate_witness :
    Seat.nameSinceVersion ≤ (⟨5, 3⟩ : Seat.Resource).version ∧
    Seat.sendName seatFix ⟨5, 3⟩ =
      [Seat.Event.name (⟨5, 3⟩ : Seat.Resource).rid seatFix.name] ∧
    (⟨6, 1⟩ : Seat.Resource).version < Seat.nameSinceVersion ∧
    Seat.sendName seatFix ⟨6, 1⟩ = [] ∧
    seatFix.name ≠ "seat1" ∧
    (Seat.setName seatFix "seat1").2 =
      seatFix.resources.flatMap
        (Seat.sendName { seatFix with name := "seat1" }) :=
  ⟨by decide,
   (seat_name_event_version_gate seatFix ⟨5, 3⟩).2.1 (by decide),
   by decide,
   (seat_name_event_version_gate seatFix ⟨6, 1⟩).1 (by decide),
   by decide,
   (seat_name_event_version_gate seatFix ⟨5, 3⟩).2.2.1 "seat1" (by decide)⟩

/-- **C9.** A successful bind negotiates version `min(3, requested)`,
appends the new resource to the tracking list, posts no error, and
immediately sends it exactly one capabilities event carrying the current
flag set, followed by the (version-gated) name event. -/
theorem seat_bind_success (s : Seat.State) (v id : Nat) :
    (Seat.bind s v id true).1.resources =
      s.resources ++ [⟨id, min Seat.sVersion v⟩] ∧
    (⟨id, min Seat.sVersion v⟩ : Seat.Resource).version = min 3 v ∧
    (Seat.bind s v id true).2.2 = false ∧
    (Seat.bind s v id true).2.1 =
      Seat.Event.capabilities id (Seat.capabilitiesMask s) ::
        Seat.sendName s ⟨id, min Seat.sVersion v⟩ ∧
    (((Seat.bind s v id true).2.1).filter Seat.Event.isCapabilities).length
      = 1 := by
  refine ⟨by simp [Seat.bind], rfl, by simp [Seat.bind], ?_, ?_⟩
  · simp only [Seat.bind, if_pos]
    rfl
  · simp only [Seat.bind, if_pos, List.filter]
    simp only [Seat.sendCapabilities, Seat.Event.isCapabilities]
    rw [show (Seat.sendName { s with resources := s.resources ++
        [(⟨id, min Seat.sVersion v⟩ : Seat.Resource)] }
        ⟨id, min Seat.sVersion v⟩ : List Seat.Event) =
        Seat.sendName s ⟨id, min Seat.sVersion v⟩ from rfl]
    unfold Seat.sendName
    split <;> simp [Seat.Event.isCapabilities]

/-- **C10.** A freshly created sub-surface starts in Synchronized mode,
with committed position `(0, 0)` and no scheduled position change
pending. -/
theorem subsurface_initial_state :
    SubSurface.initialPrivateState.mode = SubSurface.Mode.Synchronized ∧
    SubSurface.initialPrivateState.pos = (0, 0) ∧
    SubSurface.initialPrivateState.scheduledPos = (0, 0) ∧
    SubSurface.initialPrivateState.scheduledPosChange = false :=
  ⟨rfl, rfl, rfl, rfl⟩

namespace PWModel

/-- `get?` succeeds exactly on in-range indices. -/
lemma get?_isSome_iff {α : Type} (l : List α) :
    ∀ i, (l.get? i).isSome ↔ i < l.length := by
  induction l with
  | nil => intro i; simp
  | cons x xs ih =>
    intro i
    cases i with
    | zero => simp
    | succ j => simpa [Nat.succ_lt_succ_iff] using ih j

/-- After erasing index `i`, positions at or past `i` show the element
that used to live one slot later. -/
lemma get?_eraseIdx_ge {α : Type} : ∀ (l : List α) (i j : Nat), i ≤ j →
    (l.eraseIdx i).get? j = l.get? (j + 1) := by
  intro l
  induction l with
  | nil => intro i j _; simp [List.eraseIdx]
  | cons x xs ih =>
    intro i j hij
    cases i with
    | zero => simp [List.eraseIdx]
    | succ k =>
      cases j with
      | zero => omega
      | succ m =>
        simp only [List.eraseIdx, List.get?]
        exact ih k m (Nat.le_of_succ_le_succ hij)

/-- Erasing index `i` leaves earlier positions untouched. -/
lemma get?_eraseIdx_lt {α : Type} : ∀ (l : List α) (i j : Nat), j < i →
    (l.eraseIdx i).get? j = l.get? j := by
  intro l
  induction l with
  | nil => intro i j _; simp [List.eraseIdx]
  | cons x xs ih =>
    intro i j hij
    cases i with
    | zero => omega
    | succ k =>
      cases j with
      | zero => simp [List.eraseIdx]
      | succ m =>
        simp only [List.eraseIdx, List.get?]
        exact ih k m (Nat.lt_of_succ_lt_succ hij)

/-- Mapping an identifier-preserving function does not move rows. -/
lemma findRow_map_wid (l : List WindowItem) (f : WindowItem → WindowItem)
    (hf : ∀ w, (f w).wid = w.wid) (id : Nat) :
    findRow (l.map f) id = findRow l id := by
  induction l with
  | nil => rfl
  | cons w ws ih => simp [findRow, hf, ih]

/-- A found row holds an item with the looked-up identifier. -/
lemma findRow_get : ∀ (l : List WindowItem) (id i : Nat),
    findRow l id = some i → ∃ w, l.get? i = some w ∧ w.wid = id := by
  intro l
  induction l with
  | nil => intro id i h; simp [findRow] at h
  | cons w ws ih =>
    intro id i h
    simp only [findRow] at h
    by_cases hw : w.wid = id
    · rw [if_pos hw] at h
      cases h
      exact ⟨w, rfl, hw⟩
    · rw [if_neg hw] at h
      cases hfr : findRow ws id with
      | none => rw [hfr] at h; simp at h
      | some j =>
        rw [hfr] at h
        simp only [Option.map_some'] at h
        obtain ⟨w', hw', hid⟩ := ih id j hfr
        obtain rfl : j + 1 = i := Option.some.inj h
        refine ⟨w', ?_, hid⟩
        simpa [List.get?] using hw'

/-- A found row is in range. -/
lemma findRow_lt (l : List WindowItem) (id i : Nat)
    (h : findRow l id = some i) : i < l.length := by
  obtain ⟨w, hw, _⟩ := findRow_get l id i h
  exact (get?_isSome_iff l i).mp (by rw [hw]; rfl)

/-- Writing one role value never changes the stable identifier. -/
lemma applyRoleValue_wid (w : WindowItem) (r : Role) (v : Value) :
    (applyRoleValue w r v).wid = w.wid := by
  cases r <;> cases v <;> rfl

/-- Writing one role value never touches the pending buffer. -/
lemma applyRoleValue_pending (w : WindowItem) (r : Role) (v : Value) :
    (applyRoleValue w r v).pending = w.pending := by
  cases r <;> cases v <;> rfl

/-- Writing a role value commutes with replacing the pending buffer. -/
lemma applyRoleValue_set_pending (w : WindowItem) (p : List (Role × Value))
    (r : Role) (v : Value) :
    applyRoleValue { w with pending := p } r v =
      { applyRoleValue w r v with pending := p } := by
  cases r <;> cases v <;> rfl

/-- Reported role values ignore the pending buffer. -/
lemma itemData_set_pending (w : WindowItem) (p : List (Role × Value))
    (r : Role) : itemData { w with pending := p } r = itemData w r := by
  cases r <;> rfl

/-- Re-writing a role's current value is the identity. -/
lemma applyRoleValue_self (w : WindowItem) (r : Role) :
    applyRoleValue w r (itemData w r) = w := by
  cases r <;> rfl

/-- Folding role writes preserves the stable identifier. -/
lemma foldl_applyRoleValue_wid :
    ∀ (evs : List (Role × Value)) (w : WindowItem),
    (evs.foldl (fun a rv => applyRoleValue a rv.1 rv.2) w).wid = w.wid := by
  intro evs
  induction evs with
  | nil => intro w; rfl
  | cons rv evs ih =>
    intro w
    simp only [List.foldl]
    rw [ih, applyRoleValue_wid]

/-- Folding role writes preserves the pending buffer. -/
lemma foldl_applyRoleValue_pending :
    ∀ (evs : List (Role × Value)) (w : WindowItem),
    (evs.foldl (fun a rv => applyRoleValue a rv.1 rv.2) w).pending =
      w.pending := by
  intro evs
  induction evs with
  | nil => intro w; rfl
  | cons rv evs ih =>
    intro w
    simp only [List.foldl]
    rw [ih, applyRoleValue_pending]

/-- Folding role writes commutes with replacing the pending buffer. -/
lemma foldl_applyRoleValue_set_pending :
    ∀ (evs : List (Role × Value)) (w : WindowItem) (p : List (Role × Value)),
    evs.foldl (fun a rv => applyRoleValue a rv.1 rv.2) { w with pending := p }
      = { evs.foldl (fun a rv => applyRoleValue a rv.1 rv.2) w with
          pending := p } := by
  intro evs
  induction evs with
  | nil => intro w p; rfl
  | cons rv evs ih =>
    intro w p
    simp only [List.foldl]
    rw [applyRoleValue_set_pending, ih]

/-- Replacing an empty pending buffer with the empty buffer is the
identity. -/
lemma set_pending_eta (w : WindowItem) (h : w.pending = []) :
    { w with pending := ([] : List (Role × Value)) } = w := by
  rw [← h]

/-- A batch of writes that only re-sends current values leaves the item
unchanged. -/
lemma foldl_applyRoleValue_self :
    ∀ (evs : List (Role × Value)) (w : WindowItem),
    (∀ rv ∈ evs, itemData w rv.1 = rv.2) →
    evs.foldl (fun a rv => applyRoleValue a rv.1 rv.2) w = w := by
  intro evs
  induction evs with
  | nil => intro w _; rfl
  | cons rv evs ih =>
    intro w h
    have h1 : itemData w rv.1 = rv.2 := h rv (List.mem_cons_self rv evs)
    simp only [List.foldl]
    rw [show applyRoleValue w rv.1 rv.2 = w from by
      rw [← h1]; exact applyRoleValue_self w rv.1]
    exact ih w (fun x hx => h x (List.mem_cons_of_mem rv hx))

/-- Applying the done marker to an item whose buffer holds exactly the
batch `evs` folds the batch over the item. -/
lemma doneApply_of_batch (w : WindowItem) (evs : List (Role × Value))
    (hp : w.pending = []) :
    doneApply { w with pending := evs } =
      evs.foldl (fun a rv => applyRoleValue a rv.1 rv.2) w := by
  calc doneApply { w with pending := evs }
      = { evs.foldl (fun a rv => applyRoleValue a rv.1 rv.2)
            { w with pending := evs } with
          pending := ([] : List (Role × Value)) } := rfl
    _ = { ({ evs.foldl (fun a rv => applyRoleValue a rv.1 rv.2) w with
            pending := evs } : WindowItem) with
          pending := ([] : List (Role × Value)) } := by
        rw [foldl_applyRoleValue_set_pending]
    _ = { evs.foldl (fun a rv => applyRoleValue a rv.1 rv.2) w with
          pending := ([] : List (Role × Value)) } := rfl
    _ = evs.foldl (fun a rv => applyRoleValue a rv.1 rv.2) w :=
        set_pending_eta _ (by rw [foldl_applyRoleValue_pending]; exact hp)

/-- Buffering a batch updates exactly the matching items' pending
buffers. -/
lemma applyEvents_windows (m : Model) (id : Nat)
    (evs : List (Role × Value)) :
    (applyEvents m id evs).windows =
      m.windows.map (fun w =>
        if w.wid = id then { w with pending := w.pending ++ evs } else w) := by
  induction evs generalizing m with
  | nil =>
    have h : ∀ w : WindowItem,
        (if w.wid = id then { w with pending := w.pending ++ [] } else w)
          = w := by
      intro w
      rw [List.append_nil]
      split <;> rfl
    simp [applyEvents, h]
  | cons rv evs ih =>
    rw [show applyEvents m id (rv :: evs) =
      applyEvents (onAttributeEvent m id rv.1 rv.2) id evs from rfl]
    rw [ih]
    simp only [onAttributeEvent, List.map_map]
    congr 1
    funext w
    by_cases hw : w.wid = id
    · simp [Function.comp, hw, List.append_assoc]
    · simp [Function.comp, hw]

/-- The changed-role set of an item carrying batch `evs` compares the
prior values with the values after the done marker. -/
lemma changedRoles_of_batch (w : WindowItem) (evs : List (Role × Value)) :
    changedRoles { w with pending := evs } =
      allRoles.filter (fun r => itemData w r ≠
        itemData (doneApply { w with pending := evs }) r) := by
  unfold changedRoles
  apply List.filter_congr
  intro r _
  rw [itemData_set_pending]

/-- Length bookkeeping of a well-formed lifecycle run: every creation
adds a row and every close removes one. -/
lemma runW_length : ∀ (evs : List WEvent) (m : Model),
    wellFormedW m evs = true →
    (runW m evs).1.windows.length + countCloses evs =
      m.windows.length + countCreates evs := by
  intro evs
  induction evs with
  | nil => intro m _; simp [runW, countCreates, countCloses]
  | cons e evs ih =>
    intro m h
    cases e with
    | created id =>
      simp only [wellFormedW, Bool.and_eq_true] at h
      have h2 := ih _ h.2
      have h3 : (onWindowCreated m id).1.windows.length =
          m.windows.length + 1 := by
        simp [onWindowCreated]
      simp only [runW, stepW]
      simp only [countCreates, countCloses, List.countP_cons, if_true, if_false]
      simp only [countCreates, countCloses] at h2
      norm_num
      omega
    | closed id =>
      simp only [wellFormedW, Bool.and_eq_true,
        Option.isSome_iff_exists] at h
      obtain ⟨⟨i, hi⟩, hwf⟩ := h
      have h2 := ih _ hwf
      have hlt := findRow_lt m.windows id i hi
      have h3 : (onWindowClosed m id).1.windows.length =
          m.windows.length - 1 := by
        simp [onWindowClosed, hi, List.length_eraseIdx_of_lt hlt]
      simp only [runW, stepW]
      simp only [countCreates, countCloses, List.countP_cons, if_true, if_false]
      simp only [countCreates, countCloses] at h2
      norm_num
      omega

/-- A negative or too-large row resolves to no item. -/
lemma itemAt_none (m : Model) (row : Int)
    (h : row < 0 ∨ (rowCount m : Int) ≤ row) :
    itemAt m row = none := by
  unfold itemAt
  rcases h with h | h
  · rw [if_neg (by omega)]
  · by_cases h0 : 0 ≤ row
    · rw [if_pos h0]
      apply List.get?_eq_none.mpr
      simp only [rowCount] at h
      omega
    · rw [if_neg h0]

end PWModel

/-- **C1.** Buffering a batch of attribute events for a window and then
applying the done marker updates the item atomically, and the
notification is exactly one data-changed notification carrying the row
index and the set of roles whose value actually changed when that set is
non-empty — and nothing at all otherwise; in particular a batch that
only re-sends current values yields zero notifications. -/
theorem model_done_single_diffed_notification
    (m : PWModel.Model) (id i : Nat) (w : PWModel.WindowItem)
    (evs : List (PWModel.Role × PWModel.Value))
    (hrow : PWModel.findRow m.windows id = some i)
    (hw : m.windows.get? i = some w)
    (hp : w.pending = []) :
    (PWModel.onDone (PWModel.applyEvents m id evs) id).1.windows.get? i =
      some (PWModel.doneApply { w with pending := evs }) ∧
    (PWModel.onDone (PWModel.applyEvents m id evs) id).2 =
      (if (PWModel.allRoles.filter (fun r => PWModel.itemData w r ≠
            PWModel.itemData
              (PWModel.doneApply { w with pending := evs }) r)).isEmpty
        then []
        else [PWModel.Notif.dataChanged i
          (PWModel.allRoles.filter (fun r => PWModel.itemData w r ≠
            PWModel.itemData
              (PWModel.doneApply { w with pending := evs }) r))]) ∧
    ((∀ rv ∈ evs, PWModel.itemData w rv.1 = rv.2) →
      (PWModel.onDone (PWModel.applyEvents m id evs) id).2 = []) := by
  have hwid : w.wid = id := by
    obtain ⟨w', hw', hid⟩ := PWModel.findRow_get m.windows id i hrow
    rw [hw] at hw'
    cases hw'
    exact hid
  have hfpres : ∀ x : PWModel.WindowItem,
      ((if x.wid = id then { x with pending := x.pending ++ evs } else x) :
        PWModel.WindowItem).wid = x.wid := by
    intro x
    split <;> rfl
  have hwin := PWModel.applyEvents_windows m id evs
  have hrow' :
      PWModel.findRow (PWModel.applyEvents m id evs).windows id = some i := by
    rw [hwin, PWModel.findRow_map_wid _ _ hfpres]
    exact hrow
  have hget' : (PWModel.applyEvents m id evs).windows.get? i =
      some { w with pending := evs } := by
    rw [hwin, List.get?_map, hw]
    simp [hwid, hp]
  have hres : PWModel.onDone (PWModel.applyEvents m id evs) id =
      (⟨(PWModel.applyEvents m id evs).windows.map
          (fun x => if x.wid = id then PWModel.doneApply x else x)⟩,
       if (PWModel.changedRoles { w with pending := evs }).isEmpty then []
       else [PWModel.Notif.dataChanged i
         (PWModel.changedRoles { w with pending := evs })]) := by
    simp only [PWModel.onDone, hrow', hget']
  refine ⟨?_, ?_, ?_⟩
  · rw [hres]
    show ((PWModel.applyEvents m id evs).windows.map
        (fun x => if x.wid = id then PWModel.doneApply x else x)).get? i = _
    rw [List.get?_map, hget']
    simp [hwid]
  · rw [hres, PWModel.changedRoles_of_batch w evs]
  · intro hresend
    rw [hres]
    have hdone : PWModel.doneApply { w with pending := evs } = w :=
      (PWModel.doneApply_of_batch w evs hp).trans
        (PWModel.foldl_applyRoleValue_self evs w hresend)
    rw [PWModel.changedRoles_of_batch w evs, hdone]
    simp

/-- Witness for C1: one buffered `IsActive := true` event followed by
done on a fresh window emits exactly one data-changed notification for
row 0 with changed-role set `{IsActive}`. -/
theorem model_done_single_diffed_notification_witness :
    PWModel.findRow modelFix.windows 7 = some 0 ∧
    (PWModel.onDone (PWModel.applyEvents modelFix 7
        [(PWModel.Role.IsActive, PWModel.Value.bool true)]) 7).2 =
      [PWModel.Notif.dataChanged 0 [PWModel.Role.IsActive]] ∧
    (PWModel.onDone (PWModel.applyEvents modelFix 7
        [(PWModel.Role.IsActive, PWModel.Value.bool
          (PWModel.defaultItem 7).active)]) 7).2 = [] := by
  refine ⟨by decide, ?_, ?_⟩
  · have h := model_done_single_diffed_notification modelFix 7 0
      (PWModel.defaultItem 7)
      [(PWModel.Role.IsActive, PWModel.Value.bool true)]
      (by decide) (by decide) (by decide)
    rw [h.2.1]
    decide
  · have h := model_done_single_diffed_notification modelFix 7 0
      (PWModel.defaultItem 7)
      [(PWModel.Role.IsActive, PWModel.Value.bool
        (PWModel.defaultItem 7).active)]
      (by decide) (by decide) (by decide)
    exact h.2.2 (by decide)

/-- **C2.** Over any well-formed lifecycle sequence from the empty model,
the row count equals creations minus closes and rows are exactly the
contiguous indices below the row count; a creation appends the item at
the tail with a row-inserted notification carrying the new index, and a
close splices the item out with a row-removed notification carrying the
removed index, later rows shifting down by one and earlier rows staying
put. -/
theorem model_add_remove_rows_contiguous :
    (∀ evs : List PWModel.WEvent,
      PWModel.wellFormedW PWModel.emptyModel evs = true →
      PWModel.rowCount (PWModel.runW PWModel.emptyModel evs).1 =
        PWModel.countCreates evs - PWModel.countCloses evs ∧
      ∀ i : Nat,
        (((PWModel.runW PWModel.emptyModel evs).1.windows.get? i).isSome ↔
          i < PWModel.rowCount (PWModel.runW PWModel.emptyModel evs).1)) ∧
    (∀ (m : PWModel.Model) (id : Nat),
      PWModel.onWindowCreated m id =
        (⟨m.windows ++ [PWModel.defaultItem id]⟩,
         [PWModel.Notif.rowInserted (PWModel.rowCount m)])) ∧
    (∀ (m : PWModel.Model) (id i : Nat),
      PWModel.findRow m.windows id = some i →
      (PWModel.onWindowClosed m id).2 = [PWModel.Notif.rowRemoved i] ∧
      PWModel.rowCount (PWModel.onWindowClosed m id).1 =
        PWModel.rowCount m - 1 ∧
      (∀ j, i ≤ j → (PWModel.onWindowClosed m id).1.windows.get? j =
        m.windows.get? (j + 1)) ∧
      (∀ j, j < i → (PWModel.onWindowClosed m id).1.windows.get? j =
        m.windows.get? j)) := by
  refine ⟨?_, ?_, ?_⟩
  · intro evs h
    have hlen := PWModel.runW_length evs PWModel.emptyModel h
    constructor
    · simp only [PWModel.rowCount, PWModel.emptyModel] at *
      simp only [List.length_nil] at hlen
      omega
    · intro i
      simpa [PWModel.rowCount] using
        PWModel.get?_isSome_iff (PWModel.runW PWModel.emptyModel evs).1.windows i
  · intro m id
    rfl
  · intro m id i hfi
    have hlt := PWModel.findRow_lt m.windows id i hfi
    refine ⟨?_, ?_, ?_, ?_⟩
    · simp [PWModel.onWindowClosed, hfi]
    · simp [PWModel.onWindowClosed, hfi, PWModel.rowCount,
        List.length_eraseIdx_of_lt hlt]
    · intro j hj
      simp only [PWModel.onWindowClosed, hfi]
      exact PWModel.get?_eraseIdx_ge m.windows i j hj
    · intro j hj
      simp only [PWModel.onWindowClosed, hfi]
      exact PWModel.get?_eraseIdx_lt m.windows i j hj

/-- Witness for C2: two creations and one close leave one row, and the
close of the fixture's only window emits a row-removed notification for
index 0. -/
theorem model_add_remove_rows_contiguous_witness :
    PWModel.wellFormedW PWModel.emptyModel lifecycleFix = true ∧
    PWModel.rowCount (PWModel.runW PWModel.emptyModel lifecycleFix).1 = 1 ∧
    PWModel.findRow modelFix.windows 7 = some 0 ∧
    (PWModel.onWindowClosed modelFix 7).2 =
      [PWModel.Notif.rowRemoved 0] := by
  refine ⟨by decide, ?_, by decide, ?_⟩
  · have h := model_add_remove_rows_contiguous.1 lifecycleFix (by decide)
    rw [h.1]
    decide
  · exact (model_add_remove_rows_contiguous.2.2 modelFix 7 0 (by decide)).1

/-- **C3.** The creation pipeline of a window delivers, besides the
row-inserted notification, exactly one data-changed notification for the
new row, after the row-inserted notification, although no attribute
event was issued; the model state is the plain creation result. -/
theorem model_creation_emits_extra_data_changed
    (m : PWModel.Model) (id : Nat) :
    (PWModel.creationPipeline m id).2 =
      [PWModel.Notif.rowInserted (PWModel.rowCount m),
       PWModel.Notif.dataChanged (PWModel.rowCount m) PWModel.allRoles] ∧
    ((PWModel.creationPipeline m id).2.filter
        PWModel.Notif.isDataChanged).length = 1 ∧
    (PWModel.creationPipeline m id).1 = (PWModel.onWindowCreated m id).1 := by
  refine ⟨rfl, ?_, rfl⟩
  simp [PWModel.creationPipeline, PWModel.onWindowCreated,
    PWModel.Notif.isDataChanged, List.filter]

/-- **C4.** For an in-range row, each toggle request forwards exactly one
protocol request carrying the logical negation of the model's current
value of the corresponding boolean role, leaves the model state
untouched, and emits no notification. -/
theorem model_toggle_requests_negate
    (m : PWModel.Model) (row : Int) (w : PWModel.WindowItem)
    (h : PWModel.itemAt m row = some w) :
    PWModel.requestToggleMinimized m row =
      (m, [PWModel.Request.setMinimized w.wid (!w.minimized)], []) ∧
    PWModel.requestToggleMaximized m row =
      (m, [PWModel.Request.setMaximized w.wid (!w.maximized)], []) ∧
    PWModel.requestToggleShaded m row =
      (m, [PWModel.Request.setShaded w.wid (!w.shaded)], []) ∧
    PWModel.data m row PWModel.Role.IsMinimized =
      PWModel.Value.bool w.minimized ∧
    PWModel.data m row PWModel.Role.IsMaximized =
      PWModel.Value.bool w.maximized ∧
    PWModel.data m row PWModel.Role.IsShaded =
      PWModel.Value.bool w.shaded := by
  refine ⟨?_, ?_, ?_, ?_, ?_, ?_⟩ <;>
    simp [PWModel.requestToggleMinimized, PWModel.requestToggleMaximized,
      PWModel.requestToggleShaded, PWModel.requestVia, PWModel.data, h,
      PWModel.itemData]

/-- Witness for C4: toggling the fixture's fresh window requests
minimized := true and leaves the model unchanged. -/
theorem model_toggle_requests_negate_witness :
    PWModel.itemAt modelFix 0 = some (PWModel.defaultItem 7) ∧
    PWModel.requestToggleMinimized modelFix 0 =
      (modelFix, [PWModel.Request.setMinimized 7 true], []) := by
  refine ⟨by decide, ?_⟩
  have h := model_toggle_requests_negate modelFix 0 (PWModel.defaultItem 7)
    (by decide)
  rw [h.1]
  decide

/-- **C5.** Every request entry point called with an out-of-range row —
negative or at least the row count — forwards no protocol request, emits
no notification, and leaves the model state unchanged. -/
theorem model_requests_out_of_range
    (m : PWModel.Model) (row d : Int)
    (h : row < 0 ∨ (PWModel.rowCount m : Int) ≤ row) :
    PWModel.requestActivate m row = (m, [], []) ∧
    PWModel.requestClose m row = (m, [], []) ∧
    PWModel.requestMove m row = (m, [], []) ∧
    PWModel.requestResize m row = (m, [], []) ∧
    PWModel.requestVirtualDesktop m row d = (m, [], []) ∧
    PWModel.requestToggleMinimized m row = (m, [], []) ∧
    PWModel.requestToggleMaximized m row = (m, [], []) ∧
    PWModel.requestToggleShaded m row = (m, [], []) := by
  have hnone := PWModel.itemAt_none m row h
  refine ⟨?_, ?_, ?_, ?_, ?_, ?_, ?_, ?_⟩ <;>
    simp [PWModel.requestActivate, PWModel.requestClose, PWModel.requestMove,
      PWModel.requestResize, PWModel.requestVirtualDesktop,
      PWModel.requestToggleMinimized, PWModel.requestToggleMaximized,
      PWModel.requestToggleShaded, PWModel.requestVia, hnone]

/-- Witness for C5: on the one-row fixture, rows `-1` and `1` are both
ignored by every request entry point. -/
theorem model_requests_out_of_range_witness :
    ((-1 : Int) < 0 ∨ (PWModel.rowCount modelFix : Int) ≤ -1) ∧
    PWModel.requestActivate modelFix (-1) = (modelFix, [], []) ∧
    ((1 : Int) < 0 ∨ (PWModel.rowCount modelFix : Int) ≤ 1) ∧
    PWModel.requestToggleShaded modelFix 1 = (modelFix, [], []) :=
  ⟨by decide,
   (model_requests_out_of_range modelFix (-1) 1 (by decide)).1,
   by decide,
   (model_requests_out_of_range modelFix 1 1 (by decide)).2.2.2.2.2.2.2⟩
